import Mathlib

/-!
Shallow embedding of the curve-to-plot transformation and axis-stability
subsystem of `src/src/App.tsx` (las-analyser-frontend).

Modelling conventions:
* JS numbers are modelled as `Int` (the claims under study involve no
  float-specific behaviour).
* A JS value that may be a number or something else is `Val`
  (`typeof v === "number"` keeps exactly the `Val.num` constructor).
* Possibly-absent JS fields are `Option`; optional chaining (`a?.b`)
  becomes `Option.bind`.
* The `axisRangesRef.current` record (`Record<string, [number, number]>`)
  is an association list with first-match lookup; the code only writes a
  key when it is absent, so cons + first-match lookup coincides with JS
  property assignment.
* Rendering-only constants of the plot objects (colours, line widths,
  fonts, margins) are omitted; every field a claim talks about is kept.
-/

namespace LasApp

/-- A dynamically typed JS value as seen by `typeof v === "number"`:
either a number or anything else. -/
inductive Val where
  | num (n : Int)
  | other
deriving DecidableEq

/-- One depth station of the fetched data:
`{ depth: number, values?: { [curve]: Val } }`.  The `values` object may be
absent (the source reads it as `d.values?.[curve]`). -/
structure Sample where
  depth : Int
  values : Option (List (String × Val))
deriving DecidableEq

/-- `d.values?.[curve]` — optional chaining into the values record. -/
def getVal (s : Sample) (curve : String) : Option Val :=
  s.values.bind (fun vs => List.lookup curve vs)

/-- The `axisRangesRef.current` record: curve name ↦ `[min, max]`. -/
abbrev RangeCache := List (String × (Int × Int))

/-- `data.map(d => d.values?.[curve]).filter(v => typeof v === "number")`
(App.tsx lines 181–183): the numeric values of `curve` in the batch. -/
def numericValues (data : List Sample) (curve : String) : List Int :=
  (data.map (fun d => getVal d curve)).filterMap (fun v =>
    match v with
    | some (Val.num n) => some n
    | _ => none)

/-- `Math.min(...values)` on a non-empty list (the source guards
`values.length > 0`); the `[]` case is never reached. -/
def listMin : List Int → Int
  | [] => 0
  | v :: vs => vs.foldl min v

/-- `Math.max(...values)` on a non-empty list. -/
def listMax : List Int → Int
  | [] => 0
  | v :: vs => vs.foldl max v

/-- The per-curve body of the range-cache update (App.tsx lines 180–190),
functionalised: on a hit the cache and the cached pair are returned
unchanged; on a miss with at least one numeric value the `[min, max]`
pair is computed by a full scan and stored; on a miss with no numeric
value nothing is stored. -/
def getOrCompute (cache : RangeCache) (curve : String) (data : List Sample) :
    RangeCache × Option (Int × Int) :=
  match List.lookup curve cache with
  | some r => (cache, some r)
  | none =>
    let values := numericValues data curve
    if values.length > 0 then
      let mn := listMin values
      let mx := listMax values
      ((curve, (mn, mx)) :: cache, some (mn, mx))
    else
      (cache, none)

/-- The whole cache-update loop `selectedCurves.forEach(curve => ...)`
(App.tsx lines 179–191). -/
def updateRanges (cache : RangeCache) (sel : List String) (data : List Sample) :
    RangeCache :=
  sel.foldl (fun acc c => (getOrCompute acc c data).1) cache


/-- Per-curve statistics of the AI interpretation; only `spikeDepths` is
consumed by the plot assembly (`interpretation?.stats?.[curve]?.spikeDepths`),
and it may be absent. -/
structure CurveStats where
  spikeDepths : Option (List Int)
deriving DecidableEq

/-- One entry of `interpretation.cleanedCurves`: `{depths?, values?}`,
either field may be absent (the source checks
`!curveData.depths || !curveData.values`). -/
structure Cleaned where
  depths : Option (List Int)
  values : Option (List Int)
deriving DecidableEq

/-- The AI interpretation payload; `stats`, `cleanedCurves` and `summary`
are each independently optional. -/
structure Interp where
  stats : Option (List (String × CurveStats))
  cleanedCurves : Option (List (String × Cleaned))
  summary : Option String
deriving DecidableEq

/-- `interpretation?.stats?.[curve]?.spikeDepths || []` (App.tsx
lines 214–215): any absent link of the chain yields the empty list. -/
def getSpikeDepths (interp : Option Interp) (curve : String) : List Int :=
  ((((interp.bind Interp.stats).bind
      (fun st => List.lookup curve st)).bind CurveStats.spikeDepths)).getD []

/-- Trace mode: `mode: "lines"` for the main curve, `mode: "markers"` for
the anomaly spikes. -/
inductive Mode where
  | lines
  | markers
deriving DecidableEq

/-- `index === 0 ? "y" : "y" + (index + 1)` — the `yaxis` identifier a
trace is assigned to (App.tsx lines 210 and 232). -/
def axisId (index : Nat) : String :=
  if index == 0 then "y" else "y" ++ toString (index + 1)

/-- A trace pushed to `Plotly.newPlot`; rendering-only fields
(`line`, `marker` styling) omitted. -/
structure Trace where
  x : List Int
  y : List (Option Val)
  mode : Mode
  name : String
  yaxis : String
deriving DecidableEq

/-- The main curve line trace (App.tsx lines 203–211):
`x = data.map(d => d.depth)`, `y = data.map(d => d.values?.[curve])`. -/
def mkLine (data : List Sample) (curve : String) (index : Nat) : Trace :=
  { x := data.map Sample.depth
    y := data.map (fun d => getVal d curve)
    mode := Mode.lines
    name := curve
    yaxis := axisId index }

/-- `data.filter(d => spikeDepths.includes(d.depth))` (App.tsx
lines 218–220). -/
def spikePoints (data : List Sample) (spikes : List Int) : List Sample :=
  data.filter (fun d => spikes.contains d.depth)

/-- The anomaly marker trace (App.tsx lines 222–233). -/
def mkMarker (data : List Sample) (spikes : List Int) (curve : String)
    (index : Nat) : Trace :=
  { x := (spikePoints data spikes).map Sample.depth
    y := (spikePoints data spikes).map (fun d => getVal d curve)
    mode := Mode.markers
    name := curve ++ " Spikes"
    yaxis := axisId index }

/-- The traces pushed for one selected curve at position `index`
(the body of `selectedCurves.forEach((curve, index) => ...)`,
App.tsx lines 198–235): the line trace, then the marker trace iff
`spikeDepths.length > 0`. -/
def curveTraces (data : List Sample) (interp : Option Interp)
    (curve : String) (index : Nat) : List Trace :=
  let spikes := getSpikeDepths interp curve
  mkLine data curve index ::
    (if spikes.length > 0 then [mkMarker data spikes curve index] else [])

/-- The `forEach` loop with its running index, as a recursion on the
remaining selection. -/
def assembleFrom (data : List Sample) (interp : Option Interp) :
    Nat → List String → List Trace
  | _, [] => []
  | i, c :: rest => curveTraces data interp c i ++ assembleFrom data interp (i + 1) rest

/-- The full trace list handed to `Plotly.newPlot` (App.tsx
lines 195–238). -/
def assemble (data : List Sample) (sel : List String)
    (interp : Option Interp) : List Trace :=
  assembleFrom data interp 0 sel

/-- `side: index % 2 === 0 ? "left" : "right"`. -/
inductive Side where
  | left
  | right
deriving DecidableEq

/-- One `yaxis` layout entry (App.tsx lines 266–283); rendering-only
fields (`showline`, colours, fonts) omitted. -/
structure AxisConfig where
  title : String
  showgrid : Bool
  overlaying : Option String
  side : Side
  autorange : Bool
  range : Option (Int × Int)
  fixedrange : Bool
deriving DecidableEq

/-- The axis entry built for `curve` at position `index` (App.tsx
lines 263–284): `showgrid: index === 0`, `overlaying` only for secondary
axes, alternating sides, and — unconditionally — `autorange: false`,
`range: axisRangesRef.current[curve]` (absent on a cache miss) and
`fixedrange: true`. -/
def buildAxisConfig (cache : RangeCache) (curve : String) (index : Nat) :
    AxisConfig :=
  { title := curve
    showgrid := index == 0
    overlaying := if index == 0 then none else some "y"
    side := if index % 2 == 0 then Side.left else Side.right
    autorange := false
    range := List.lookup curve cache
    fixedrange := true }

/-- `selectedCurves.map((curve, index) => ...)` with its running index. -/
def buildAxes (cache : RangeCache) : Nat → List String → List AxisConfig
  | _, [] => []
  | i, c :: rest => buildAxisConfig cache c i :: buildAxes cache (i + 1) rest

/-- The ordered `yaxis`, `yaxis2`, … layout entries (App.tsx
lines 262–285). -/
def axisConfigs (sel : List String) (cache : RangeCache) : List AxisConfig :=
  buildAxes cache 0 sel

/-- The main-plot effect (App.tsx lines 175–299) as a function of its
inputs: it bails out when `data.length === 0` (the `plotRef.current`
DOM guard is modelled as always satisfied), otherwise it first runs the
range-cache update loop and then calls `Plotly.newPlot` with the
assembled traces and axis layout.  Returns the rendered call (if any)
and the cache left behind. -/
def plotEffect (data : List Sample) (sel : List String)
    (interp : Option Interp) (cache : RangeCache) :
    Option (List Trace × List AxisConfig) × RangeCache :=
  if data.isEmpty then (none, cache)
  else
    let cache1 := updateRanges cache sel data
    (some (assemble data sel interp, axisConfigs sel cache1), cache1)

/-- A trace of the cleaned-curve overlay chart (App.tsx lines 312–319);
`x = curveData.depths`, `y = curveData.values`. -/
structure CTrace where
  x : List Int
  y : List Int
  name : String
deriving DecidableEq

/-- The cleaned-overlay trace loop (App.tsx lines 309–320): one trace per
`cleanedCurves` entry, in entry order, skipping an entry only when
`depths` or `values` is absent (`!curveData.depths || !curveData.values`
— note an empty array is truthy in JS, so present-but-empty fields are
NOT skipped). -/
def assembleCleaned (cc : List (String × Cleaned)) : List CTrace :=
  cc.filterMap (fun p =>
    match p.2.depths, p.2.values with
    | some ds, some vs => some { x := ds, y := vs, name := p.1 ++ " (Cleaned)" }
    | _, _ => none)

/-- The cleaned-plot effect (App.tsx lines 301–372): bails out when the
interpretation or its `cleanedCurves` field is absent, or when the
assembled trace list is empty; otherwise renders the traces.  (The
`cleanedPlotRef.current` DOM guard is modelled as always satisfied; the
selection is not an input — the overlay is selection-independent.) -/
def cleanedEffect (interp : Option Interp) : Option (List CTrace) :=
  match interp with
  | none => none
  | some it =>
    match it.cleanedCurves with
    | none => none
    | some cc =>
      let traces := assembleCleaned cc
      if traces.isEmpty then none else some traces

/-- A well as delivered by the wells listing; `start_depth`/`stop_depth`
may be absent (the source reads `well.start_depth || 0`). -/
structure Well where
  id : String
  start_depth : Option Int
  stop_depth : Option Int
deriving DecidableEq

/-- The component state touched by the well-change and delete handlers.
(`wells` itself is refreshed by an external fetch and is passed to the
handlers as an argument.) -/
structure AppState where
  selectedWell : String
  fromDepth : Int
  toDepth : Int
  curves : List String
  selectedCurves : List String
  data : List Sample
  axisRanges : RangeCache
deriving DecidableEq

/-- The `useEffect` on `[selectedWell, wells]` (App.tsx lines 37–62), run
after `selectedWell` has been set to the new well: bails out when no well
is selected (`!selectedWell`), copies the well's depth bounds, filters
`Depth`/`Time` out of the fetched curve list (`curvesResp`), stores it,
and resets the selection to the first remaining curve (or to `[]`).
`data` and `axisRanges` are not touched anywhere in this effect. -/
def wellChangeEffect (s : AppState) (wells : List Well)
    (curvesResp : List String) : AppState :=
  if s.selectedWell == "" then s
  else
    let s1 :=
      match wells.find? (fun w => w.id == s.selectedWell) with
      | some w =>
        { s with fromDepth := w.start_depth.getD 0, toDepth := w.stop_depth.getD 0 }
      | none => s
    let filtered := curvesResp.filter (fun c => !(c == "Depth") && !(c == "Time"))
    { s1 with
      curves := filtered
      selectedCurves := match filtered with | [] => [] | c :: _ => [c] }

/-- `handleDeleteWell` (App.tsx lines 158–173): when the deleted well is
the selected one, clear the selected well, the curve list and the loaded
samples; `axisRangesRef` is not touched.  (The confirmation dialog and
the `loadWells` refresh are external.) -/
def handleDeleteWell (s : AppState) (wellId : String) : AppState :=
  if s.selectedWell == wellId then
    { s with selectedWell := "", curves := [], data := [] }
  else s

/-- The curve checkbox `onChange` handler (App.tsx lines 444–451):
checking a box appends the curve unless three are already selected
(no-op); unchecking filters the curve out — with no lower-bound guard.
In the UI the checkbox is controlled, so `checked` arrives as the
negation of current membership. -/
def checkboxToggle (sel : List String) (name : String) (checked : Bool) :
    List String :=
  if checked then
    if sel.length ≥ 3 then sel else sel ++ [name]
  else
    sel.filter (fun c => !(c == name))

section MinMaxLemmas

lemma foldl_min_le_init (vs : List Int) (a : Int) : vs.foldl min a ≤ a := by
  induction vs generalizing a with
  | nil => simp
  | cons v vs ih =>
    simpa using le_trans (ih (min a v)) (min_le_left a v)

lemma foldl_min_le_mem (vs : List Int) (a : Int) {v : Int} (h : v ∈ vs) :
    vs.foldl min a ≤ v := by
  induction vs generalizing a with
  | nil => cases h
  | cons w vs ih =>
    rcases List.mem_cons.mp h with rfl | h
    · simpa using le_trans (foldl_min_le_init vs (min a v)) (min_le_right a v)
    · simpa using ih (min a w) h

lemma foldl_min_mem (vs : List Int) (a : Int) :
    vs.foldl min a = a ∨ vs.foldl min a ∈ vs := by
  induction vs generalizing a with
  | nil => exact Or.inl rfl
  | cons v vs ih =>
    rcases ih (min a v) with h | h
    · rcases min_choice a v with hm | hm
      · exact Or.inl (by simpa [hm] using h)
      · refine Or.inr ?_
        show vs.foldl min (min a v) ∈ v :: vs
        rw [h, hm]
        exact List.mem_cons_self v vs
    · exact Or.inr (List.mem_cons_of_mem _ (by simpa using h))

lemma le_foldl_max_init (vs : List Int) (a : Int) : a ≤ vs.foldl max a := by
  induction vs generalizing a with
  | nil => simp
  | cons v vs ih =>
    simpa using le_trans (le_max_left a v) (ih (max a v))

lemma mem_le_foldl_max (vs : List Int) (a : Int) {v : Int} (h : v ∈ vs) :
    v ≤ vs.foldl max a := by
  induction vs generalizing a with
  | nil => cases h
  | cons w vs ih =>
    rcases List.mem_cons.mp h with rfl | h
    · simpa using le_trans (le_max_right a v) (le_foldl_max_init vs (max a v))
    · simpa using ih (max a w) h

lemma foldl_max_mem (vs : List Int) (a : Int) :
    vs.foldl max a = a ∨ vs.foldl max a ∈ vs := by
  induction vs generalizing a with
  | nil => exact Or.inl rfl
  | cons v vs ih =>
    rcases ih (max a v) with h | h
    · rcases max_choice a v with hm | hm
      · exact Or.inl (by simpa [hm] using h)
      · refine Or.inr ?_
        show vs.foldl max (max a v) ∈ v :: vs
        rw [h, hm]
        exact List.mem_cons_self v vs
    · exact Or.inr (List.mem_cons_of_mem _ (by simpa using h))

lemma listMin_mem {l : List Int} (h : l ≠ []) : listMin l ∈ l := by
  cases l with
  | nil => exact absurd rfl h
  | cons v vs =>
    rcases foldl_min_mem vs v with h' | h'
    · simp [listMin, h']
    · exact List.mem_cons_of_mem _ (by simpa [listMin] using h')

lemma listMin_le {l : List Int} {v : Int} (h : v ∈ l) : listMin l ≤ v := by
  cases l with
  | nil => cases h
  | cons w vs =>
    rcases List.mem_cons.mp h with rfl | h'
    · simpa [listMin] using foldl_min_le_init vs v
    · simpa [listMin] using foldl_min_le_mem vs w h'

lemma listMax_mem {l : List Int} (h : l ≠ []) : listMax l ∈ l := by
  cases l with
  | nil => exact absurd rfl h
  | cons v vs =>
    rcases foldl_max_mem vs v with h' | h'
    · simp [listMax, h']
    · exact List.mem_cons_of_mem _ (by simpa [listMax] using h')

lemma le_listMax {l : List Int} {v : Int} (h : v ∈ l) : v ≤ listMax l := by
  cases l with
  | nil => cases h
  | cons w vs =>
    rcases List.mem_cons.mp h with rfl | h'
    · simpa [listMax] using le_foldl_max_init vs v
    · simpa [listMax] using mem_le_foldl_max vs w h'

end MinMaxLemmas

section SharedHelpers

lemma contains_eq_decide_mem (spikes : List Int) (x : Int) :
    spikes.contains x = decide (x ∈ spikes) := by
  by_cases h : x ∈ spikes <;> simp [List.contains, h]

lemma spikePoints_eq_filter_mem (data : List Sample) (spikes : List Int) :
    spikePoints data spikes = data.filter (fun d => decide (d.depth ∈ spikes)) := by
  unfold spikePoints
  exact List.filter_congr (fun d _ => contains_eq_decide_mem spikes d.depth)

lemma curveTraces_filter_lines (data : List Sample) (interp : Option Interp)
    (c : String) (k : Nat) :
    (curveTraces data interp c k).filter (fun t => t.mode == Mode.lines) =
      [mkLine data c k] := by
  by_cases hp : (getSpikeDepths interp c).length > 0 <;>
    simp [curveTraces, hp, List.filter, mkLine, mkMarker, beq_iff_eq]

lemma assembleFrom_filter_lines_get (data : List Sample) (interp : Option Interp) :
    ∀ (sel : List String) (k i : Nat) (c : String), sel.get? i = some c →
      ((assembleFrom data interp k sel).filter
          (fun t => t.mode == Mode.lines)).get? i = some (mkLine data c (k + i)) := by
  intro sel
  induction sel with
  | nil => intro k i c h; simp at h
  | cons c0 rest ih =>
    intro k i c h
    rw [assembleFrom, List.filter_append, curveTraces_filter_lines]
    cases i with
    | zero =>
      simp at h
      subst h
      simp
    | succ j =>
      simp only [List.get?] at h
      have := ih (k + 1) j c h
      simpa [Nat.add_assoc, Nat.add_comm 1 j] using this

lemma assembleFrom_filter_lines_length (data : List Sample) (interp : Option Interp) :
    ∀ (sel : List String) (k : Nat),
      ((assembleFrom data interp k sel).filter
          (fun t => t.mode == Mode.lines)).length = sel.length := by
  intro sel
  induction sel with
  | nil => intro k; rfl
  | cons c0 rest ih =>
    intro k
    rw [assembleFrom, List.filter_append, curveTraces_filter_lines]
    simp [ih (k + 1)]

lemma buildAxes_get (cache : RangeCache) :
    ∀ (sel : List String) (k i : Nat) (c : String), sel.get? i = some c →
      (buildAxes cache k sel).get? i = some (buildAxisConfig cache c (k + i)) := by
  intro sel
  induction sel with
  | nil => intro k i c h; simp at h
  | cons c0 rest ih =>
    intro k i c h
    cases i with
    | zero =>
      simp at h
      subst h
      simp [buildAxes]
    | succ j =>
      simp only [List.get?] at h
      have := ih (k + 1) j c h
      simpa [buildAxes, Nat.add_assoc, Nat.add_comm 1 j] using this

end SharedHelpers

/-- C1: axis-range stability (first batch wins).  Once a range-cache call
for `curve` has succeeded — returning cache `cache1` and range `r` — the
entry for `curve` is present in `cache1`, and every later invocation on a
cache still holding `r` for `curve`, with any sample batch whatsoever,
returns the cache unchanged together with the same range `r`: the new
batch is ignored on a cache hit. -/
theorem axisRange_first_batch_wins (cache cache1 : RangeCache) (curve : String)
    (b1 : List Sample) (r : Int × Int)
    (h : getOrCompute cache curve b1 = (cache1, some r)) :
    List.lookup curve cache1 = some r ∧
    ∀ (cache2 : RangeCache) (b2 : List Sample),
      List.lookup curve cache2 = some r →
      getOrCompute cache2 curve b2 = (cache2, some r) := by
  constructor
  · unfold getOrCompute at h
    cases hl : List.lookup curve cache with
    | some r0 =>
      rw [hl] at h
      simp at h
      obtain ⟨rfl, rfl⟩ := h
      exact hl
    | none =>
      rw [hl] at h
      by_cases hp : (numericValues b1 curve).length > 0
      · simp [hp] at h
        obtain ⟨h1, h2⟩ := h
        rw [← h1]
        simp [List.lookup, h2]
      · simp [hp] at h
  · intro cache2 b2 h2
    unfold getOrCompute
    rw [h2]

/-- Witness for C1, on the spec's scenario: selection `GR`, first batch
depths 0 and 1 with values 5 and 15 caches `(5, 15)`; the second batch
with value 100 at depth 2 leaves the cache and the returned range
unchanged. -/
theorem axisRange_first_batch_wins_witness :
    getOrCompute [] "GR"
        [{ depth := 0, values := some [("GR", Val.num 5)] },
         { depth := 1, values := some [("GR", Val.num 15)] }] =
      ([("GR", (5, 15))], some (5, 15)) ∧
    getOrCompute [("GR", (5, 15))] "GR"
        [{ depth := 2, values := some [("GR", Val.num 100)] }] =
      ([("GR", (5, 15))], some (5, 15)) :=
  ⟨by decide,
   (axisRange_first_batch_wins [] [("GR", (5, 15))] "GR"
      [{ depth := 0, values := some [("GR", Val.num 5)] },
       { depth := 1, values := some [("GR", Val.num 15)] }] (5, 15)
      (by decide)).2
     [("GR", (5, 15))] [{ depth := 2, values := some [("GR", Val.num 100)] }]
     (by decide)⟩

/-- C2: axis-range computation on a cache miss.  With no cached entry for
`curve`: if the batch holds at least one numeric value of `curve`, the
call stores and returns a pair `(m, M)` where `m` and `M` are numeric
values of the batch bounding all of them below resp. above (i.e. the
minimum and maximum of exactly the numeric values; absent and
non-numeric entries are excluded by `numericValues`); if it holds none,
nothing is cached and no range is returned, and a later batch that does
hold numeric values succeeds. -/
theorem axisRange_cache_miss (cache : RangeCache) (curve : String)
    (data : List Sample) (hmiss : List.lookup curve cache = none) :
    (numericValues data curve ≠ [] →
      ∃ m M,
        getOrCompute cache curve data = ((curve, (m, M)) :: cache, some (m, M)) ∧
        m ∈ numericValues data curve ∧ M ∈ numericValues data curve ∧
        ∀ v ∈ numericValues data curve, m ≤ v ∧ v ≤ M) ∧
    (numericValues data curve = [] →
      getOrCompute cache curve data = (cache, none) ∧
      ∀ data2 : List Sample, numericValues data2 curve ≠ [] →
        ∃ r, getOrCompute cache curve data2 = ((curve, r) :: cache, some r)) := by
  constructor
  · intro hne
    refine ⟨listMin (numericValues data curve), listMax (numericValues data curve),
      ?_, listMin_mem hne, listMax_mem hne,
      fun v hv => ⟨listMin_le hv, le_listMax hv⟩⟩
    have hp : (numericValues data curve).length > 0 := List.length_pos.mpr hne
    simp [getOrCompute, hmiss, hp]
  · intro he
    constructor
    · simp [getOrCompute, hmiss, he]
    · intro d2 hne
      have hp : (numericValues d2 curve).length > 0 := List.length_pos.mpr hne
      exact ⟨(listMin (numericValues d2 curve), listMax (numericValues d2 curve)),
        by simp [getOrCompute, hmiss, hp]⟩

/-- Witness for C2 at a concrete batch: an empty cache misses for `GR`,
and the computation on the batch with values 5 and 15 stores a bounding
pair drawn from the batch's numeric values. -/
theorem axisRange_cache_miss_witness :
    List.lookup "GR" ([] : RangeCache) = none ∧
    ∃ m M,
      getOrCompute [] "GR"
          [{ depth := 0, values := some [("GR", Val.num 5)] },
           { depth := 1, values := some [("GR", Val.num 15)] }] =
        (("GR", (m, M)) :: [], some (m, M)) ∧
      m ∈ numericValues
          [{ depth := 0, values := some [("GR", Val.num 5)] },
           { depth := 1, values := some [("GR", Val.num 15)] }] "GR" ∧
      M ∈ numericValues
          [{ depth := 0, values := some [("GR", Val.num 5)] },
           { depth := 1, values := some [("GR", Val.num 15)] }] "GR" ∧
      ∀ v ∈ numericValues
          [{ depth := 0, values := some [("GR", Val.num 5)] },
           { depth := 1, values := some [("GR", Val.num 15)] }] "GR",
        m ≤ v ∧ v ≤ M :=
  ⟨by decide,
   (axisRange_cache_miss [] "GR"
      [{ depth := 0, values := some [("GR", Val.num 5)] },
       { depth := 1, values := some [("GR", Val.num 15)] }]
      (by decide)).1 (by decide)⟩

/-- C3 (counterexample): the claim says that when no range is cached for
a curve, the built axis config specifies auto-scaling and is not a fixed,
non-interactive range.  With an empty cache the config for `GR` at
position 0 nevertheless has `autorange: false` and `fixedrange: true`:
the code sets both unconditionally. -/
theorem axis_range_lock_cex :
    List.lookup "GR" ([] : RangeCache) = none ∧
    ¬((buildAxisConfig [] "GR" 0).autorange = true ∨
      (buildAxisConfig [] "GR" 0).fixedrange = false) := by
  decide

/-- C3 (amended): for every curve the built axis config carries the
cached range verbatim when one exists (locked to exactly that
`[min, max]`) and no range field at all otherwise — and in both cases the
axis is marked non-interactive (`fixedrange: true`) with auto-scaling
disabled (`autorange: false`); the uncached case is not auto-scaling. -/
theorem axis_range_lock (cache : RangeCache) (curve : String) (index : Nat) :
    (buildAxisConfig cache curve index).range = List.lookup curve cache ∧
    (buildAxisConfig cache curve index).autorange = false ∧
    (buildAxisConfig cache curve index).fixedrange = true :=
  ⟨rfl, rfl, rfl⟩

/-- C4 (counterexample): the claim says that after the selected well
changes, no axis range cached during the previous well's session remains.
Starting from a state whose cache holds `GR ↦ (5, 15)` (cached while the
previous well was selected) and running the well-change effect for the
newly selected well `w2`, the entry is still there. -/
theorem cache_survives_well_change_cex :
    List.lookup "GR"
      ((wellChangeEffect
          { selectedWell := "w2", fromDepth := 0, toDepth := 0, curves := [],
            selectedCurves := [], data := [], axisRanges := [("GR", (5, 15))] }
          [{ id := "w2", start_depth := some 100, stop_depth := some 200 }]
          ["RES"]).axisRanges) = some (5, 15) := by
  decide

/-- C4 (amended): neither the well-change effect nor the delete handler
touches the axis-range cache — it lives for the component lifetime, so
ranges cached during a previous well's session remain.  The sample store
is likewise untouched by a well change; it is cleared only when the
currently selected well is deleted. -/
theorem cache_survives_well_change (s : AppState) (wells : List Well)
    (resp : List String) (wid : String) :
    (wellChangeEffect s wells resp).axisRanges = s.axisRanges ∧
    (wellChangeEffect s wells resp).data = s.data ∧
    (handleDeleteWell s wid).axisRanges = s.axisRanges ∧
    (handleDeleteWell s wid).data = (if s.selectedWell == wid then [] else s.data) := by
  refine ⟨?_, ?_, ?_, ?_⟩
  · unfold wellChangeEffect
    split
    · rfl
    · cases wells.find? (fun w => w.id == s.selectedWell) <;> rfl
  · unfold wellChangeEffect
    split
    · rfl
    · cases wells.find? (fun w => w.id == s.selectedWell) <;> rfl
  · unfold handleDeleteWell
    split <;> rfl
  · unfold handleDeleteWell
    by_cases h : s.selectedWell == wid <;> simp [h]

/-- C5: spike-marker assembly for the curve at position `index`.  When
`spikeDepths` is non-empty, the traces emitted for the curve contain
exactly one marker trace; its points are exactly the samples whose depth
is a member of `spikeDepths` (exact equality, no tolerance), and it sits
on the same `yaxis` as the curve's line trace.  When `spikeDepths` is
empty or absent (`getSpikeDepths` yields `[]`), no marker trace is
emitted. -/
theorem spike_marker_assembly (data : List Sample) (interp : Option Interp)
    (curve : String) (index : Nat) :
    (getSpikeDepths interp curve ≠ [] →
      (curveTraces data interp curve index).filter
          (fun t => t.mode == Mode.markers) =
        [mkMarker data (getSpikeDepths interp curve) curve index] ∧
      (mkMarker data (getSpikeDepths interp curve) curve index).x =
        (data.filter
            (fun d => decide (d.depth ∈ getSpikeDepths interp curve))).map
          Sample.depth ∧
      (mkMarker data (getSpikeDepths interp curve) curve index).yaxis =
        (mkLine data curve index).yaxis) ∧
    (getSpikeDepths interp curve = [] →
      (curveTraces data interp curve index).filter
          (fun t => t.mode == Mode.markers) = []) := by
  constructor
  · intro hne
    have hp : (getSpikeDepths interp curve).length > 0 := List.length_pos.mpr hne
    refine ⟨?_, ?_, rfl⟩
    · have hlm : (Mode.lines == Mode.markers) = false := rfl
      have hmm : (Mode.markers == Mode.markers) = true := rfl
      simp [curveTraces, hp, List.filter, mkLine, mkMarker, hlm, hmm]
    · simp [mkMarker, spikePoints_eq_filter_mem]
  · intro he
    have hlm : (Mode.lines == Mode.markers) = false := rfl
    simp [curveTraces, he, List.filter, mkLine, hlm]

/-- Witness for C5, on the spec's scenario: `spikeDepths = [100, 150]`
and samples at depths 90, 100, 110, 150, 200 yield one marker trace with
exactly two points, at depths 100 and 150, on the line trace's axis. -/
theorem spike_marker_assembly_witness :
    getSpikeDepths
        (some { stats := some [("GR", { spikeDepths := some [100, 150] })],
                cleanedCurves := none, summary := none }) "GR" ≠ [] ∧
    (curveTraces
        [{ depth := 90, values := some [("GR", Val.num 1)] },
         { depth := 100, values := some [("GR", Val.num 2)] },
         { depth := 110, values := some [("GR", Val.num 3)] },
         { depth := 150, values := some [("GR", Val.num 4)] },
         { depth := 200, values := some [("GR", Val.num 5)] }]
        (some { stats := some [("GR", { spikeDepths := some [100, 150] })],
                cleanedCurves := none, summary := none }) "GR" 0).filter
        (fun t => t.mode == Mode.markers) =
      [mkMarker
        [{ depth := 90, values := some [("GR", Val.num 1)] },
         { depth := 100, values := some [("GR", Val.num 2)] },
         { depth := 110, values := some [("GR", Val.num 3)] },
         { depth := 150, values := some [("GR", Val.num 4)] },
         { depth := 200, values := some [("GR", Val.num 5)] }]
        [100, 150] "GR" 0] ∧
    (mkMarker
        [{ depth := 90, values := some [("GR", Val.num 1)] },
         { depth := 100, values := some [("GR", Val.num 2)] },
         { depth := 110, values := some [("GR", Val.num 3)] },
         { depth := 150, values := some [("GR", Val.num 4)] },
         { depth := 200, values := some [("GR", Val.num 5)] }]
        [100, 150] "GR" 0).x = [100, 150] :=
  ⟨by decide,
   ((spike_marker_assembly
      [{ depth := 90, values := some [("GR", Val.num 1)] },
       { depth := 100, values := some [("GR", Val.num 2)] },
       { depth := 110, values := some [("GR", Val.num 3)] },
       { depth := 150, values := some [("GR", Val.num 4)] },
       { depth := 200, values := some [("GR", Val.num 5)] }]
      (some { stats := some [("GR", { spikeDepths := some [100, 150] })],
              cleanedCurves := none, summary := none }) "GR" 0).1
     (by decide)).1,
   by decide⟩

/-- C6: line-trace assembly.  For every selection of 1–3 curves and every
store content and interpretation, the assembled trace list contains
exactly `|selection|` line traces; the one at position `i` belongs to the
`i`-th selected curve and carries `x =` all sample depths in store order,
`y =` that sample's value for the curve (absent where missing), and axis
identifier `i` (`"y"` for the first curve, overlaid `"y2"`/`"y3"` for the
others). -/
theorem line_trace_assembly (data : List Sample) (sel : List String)
    (interp : Option Interp) (i : Nat) (c : String)
    (_h1 : 1 ≤ sel.length) (_h3 : sel.length ≤ 3) (hc : sel.get? i = some c) :
    ((assemble data sel interp).filter
        (fun t => t.mode == Mode.lines)).length = sel.length ∧
    ((assemble data sel interp).filter
        (fun t => t.mode == Mode.lines)).get? i =
      some { x := data.map Sample.depth
             y := data.map (fun d => getVal d c)
             mode := Mode.lines
             name := c
             yaxis := axisId i } := by
  constructor
  · exact assembleFrom_filter_lines_length data interp sel 0
  · have := assembleFrom_filter_lines_get data interp sel 0 i c hc
    simpa [mkLine] using this

/-- Witness for C6 at a two-curve selection over a two-sample store,
with a value missing for the second curve at the second depth. -/
theorem line_trace_assembly_witness :
    (1 : Nat) ≤ 2 ∧
    ((assemble
        [{ depth := 0, values := some [("GR", Val.num 5), ("RES", Val.num 7)] },
         { depth := 1, values := some [("GR", Val.num 15)] }]
        ["GR", "RES"] none).filter
        (fun t => t.mode == Mode.lines)).length = 2 ∧
    ((assemble
        [{ depth := 0, values := some [("GR", Val.num 5), ("RES", Val.num 7)] },
         { depth := 1, values := some [("GR", Val.num 15)] }]
        ["GR", "RES"] none).filter
        (fun t => t.mode == Mode.lines)).get? 1 =
      some { x := [0, 1]
             y := [some (Val.num 7), none]
             mode := Mode.lines
             name := "RES"
             yaxis := "y2" } := by
  have h := line_trace_assembly
    [{ depth := 0, values := some [("GR", Val.num 5), ("RES", Val.num 7)] },
     { depth := 1, values := some [("GR", Val.num 15)] }]
    ["GR", "RES"] none 1 "RES" (by decide) (by decide) (by decide)
  exact ⟨by decide, h.1, by rw [h.2]; decide⟩

/-- C7 (counterexample): the claim says that with an empty selection no
chart is built — the render call is suppressed entirely.  But the effect
only bails out on empty data: with one sample loaded and an empty
selection the render call still happens, with an empty trace list and no
y-axis entries (an empty chart). -/
theorem empty_selection_cex :
    (plotEffect [{ depth := 0, values := some [("GR", Val.num 5)] }]
        [] none []).1 = some ([], []) ∧
    ¬((plotEffect [{ depth := 0, values := some [("GR", Val.num 5)] }]
        [] none []).1 = none) := by
  decide

/-- C7 (amended): with an empty selection the assembled trace sequence is
empty, but the composing effect suppresses the render call exactly when
the sample store is empty — with data loaded and an empty selection an
empty chart is still rendered. -/
theorem empty_selection_assemble (data : List Sample) (interp : Option Interp)
    (cache : RangeCache) :
    assemble data [] interp = [] ∧
    ((plotEffect data [] interp cache).1 = none ↔ data = []) := by
  constructor
  · rfl
  · cases data with
    | nil => simp [plotEffect]
    | cons d rest => simp [plotEffect]

/-- C8 (counterexample): the claim says a `cleanedCurves` entry is only
emitted when `depths` and `values` are both present AND non-empty, and
that an empty trace sequence means the overlay is not rendered.  But the
source only checks presence (`!curveData.depths || !curveData.values`;
an empty JS array is truthy): an entry with present-but-empty fields
still emits a trace, and the overlay is rendered. -/
theorem cleaned_overlay_cex :
    assembleCleaned [("GR", { depths := some [], values := some [] })] =
      [{ x := [], y := [], name := "GR (Cleaned)" }] ∧
    cleanedEffect (some
        { stats := none,
          cleanedCurves := some [("GR", { depths := some [], values := some [] })],
          summary := none }) =
      some [{ x := [], y := [], name := "GR (Cleaned)" }] := by
  decide

/-- C8 (amended): the cleaned overlay emits exactly one line trace per
`cleanedCurves` entry whose `depths` and `values` fields are both
present — empty arrays included — in the mapping's iteration order,
independent of any selection (the effect takes none); entries missing
either field are skipped silently; the overlay chart is not rendered
when the interpretation or its `cleanedCurves` field is absent or the
assembled trace sequence is empty, and is rendered with exactly the
assembled traces otherwise. -/
theorem cleaned_overlay_amended :
    (∀ cc : List (String × Cleaned),
      assembleCleaned cc =
        (cc.filter (fun p => p.2.depths.isSome && p.2.values.isSome)).map
          (fun p =>
            { x := p.2.depths.getD [], y := p.2.values.getD [],
              name := p.1 ++ " (Cleaned)" })) ∧
    (∀ (it : Interp) (cc : List (String × Cleaned)),
      it.cleanedCurves = some cc →
      cleanedEffect (some it) =
        if (assembleCleaned cc).isEmpty then none
        else some (assembleCleaned cc)) ∧
    cleanedEffect none = none := by
  refine ⟨?_, ?_, rfl⟩
  · intro cc
    induction cc with
    | nil => rfl
    | cons p rest ih =>
      cases hd : p.2.depths <;> cases hv : p.2.values <;>
        simp [assembleCleaned, List.filterMap_cons, List.filter_cons, hd, hv,
          ← ih, assembleCleaned]
  · intro it cc h
    simp [cleanedEffect, h]

/-- Witness for C8, on the spec's example:
`cleanedCurves = {"GR": {depths:[1,2,3], values:[10,20,30]}}` produces
exactly one cleaned-overlay trace and the overlay is rendered (there is
no selection input to the effect at all). -/
theorem cleaned_overlay_witness :
    cleanedEffect (some
        { stats := none,
          cleanedCurves :=
            some [("GR", { depths := some [1, 2, 3], values := some [10, 20, 30] })],
          summary := none }) =
      some [{ x := [1, 2, 3], y := [10, 20, 30], name := "GR (Cleaned)" }] := by
  have h := cleaned_overlay_amended.2.1
    { stats := none,
      cleanedCurves :=
        some [("GR", { depths := some [1, 2, 3], values := some [10, 20, 30] })],
      summary := none }
    [("GR", { depths := some [1, 2, 3], values := some [10, 20, 30] })] rfl
  rw [h]
  decide

/-- C9: axis layout shape.  For a selection of 1–3 curves, the axis entry
at position `i` is titled with the `i`-th curve's name; axis 0 shows grid
lines, sits on the left and overlays nothing; every axis `i ≥ 1`
suppresses grid lines, overlays the primary axis `"y"` (keeping its own
scale as a distinct layout entry), and sits left when `i` is even, right
when `i` is odd. -/
theorem axis_layout_shape (sel : List String) (cache : RangeCache) (i : Nat)
    (c : String) (_h1 : 1 ≤ sel.length) (_h3 : sel.length ≤ 3)
    (hc : sel.get? i = some c) :
    (axisConfigs sel cache).get? i = some (buildAxisConfig cache c i) ∧
    (buildAxisConfig cache c i).title = c ∧
    (i = 0 → (buildAxisConfig cache c i).showgrid = true ∧
      (buildAxisConfig cache c i).side = Side.left ∧
      (buildAxisConfig cache c i).overlaying = none) ∧
    (1 ≤ i → (buildAxisConfig cache c i).showgrid = false ∧
      (buildAxisConfig cache c i).overlaying = some "y" ∧
      (buildAxisConfig cache c i).side =
        (if i % 2 == 0 then Side.left else Side.right)) := by
  refine ⟨?_, rfl, ?_, ?_⟩
  · have := buildAxes_get cache sel 0 i c hc
    simpa [axisConfigs] using this
  · rintro rfl
    exact ⟨rfl, rfl, rfl⟩
  · intro hi
    have hne : i ≠ 0 := Nat.pos_iff_ne_zero.mp hi
    have hb : (i == 0) = false := beq_eq_false_iff_ne.mpr hne
    exact ⟨by simp [buildAxisConfig, hb], by simp [buildAxisConfig, hb], rfl⟩

/-- Witness for C9 at the three-curve selection `GR`, `RES`, `POR`:
the third axis (position 2) suppresses grid lines, overlays `"y"` and
sits on the left (2 is even), and is titled `POR`. -/
theorem axis_layout_shape_witness :
    (axisConfigs ["GR", "RES", "POR"] []).get? 2 =
      some (buildAxisConfig [] "POR" 2) ∧
    (buildAxisConfig [] "POR" 2).title = "POR" ∧
    (buildAxisConfig [] "POR" 2).showgrid = false ∧
    (buildAxisConfig [] "POR" 2).overlaying = some "y" ∧
    (buildAxisConfig [] "POR" 2).side = Side.left := by
  have h := axis_layout_shape ["GR", "RES", "POR"] [] 2 "POR"
    (by decide) (by decide) (by decide)
  refine ⟨h.1, h.2.1, (h.2.2.2 (by decide)).1, (h.2.2.2 (by decide)).2.1, by decide⟩

/-- C10: the selection-size invariant fails in the code.  Checking a
fourth curve with three already selected is indeed a silent no-op, but
unchecking the only selected curve empties the selection — the code
never enforces the lower bound `1 ≤ |Selection|` that the claim (and the
UI label "Select Curves (min 1, max 3)") states. -/
theorem selection_toggle_eval :
    checkboxToggle ["GR"] "GR" false = [] ∧
    checkboxToggle ["A", "B", "C"] "D" true = ["A", "B", "C"] := by
  decide

end LasApp
